import Mathlib

/-!
Shallow embedding of the TimeZZ Trello power-up timer lifecycle.

Two source variants are embedded side by side:

* the `frontend` variant (src/frontend/trello-powerup.js), whose
  `TimerManager.startTimer` first calls `stopAnyRunningTimer` (a linear
  scan over the board's cards removing every active record) and whose
  `Utils.apiCall` catches every failure and returns null;
* the `trello-powerup` variant (src/trello-powerup/trello-powerup.js),
  whose `startTimer` performs no scan, whose `apiCall` rethrows, and whose
  `stopTimer` branches on the record's `offline` flag.

The host scoped store (`t.get` / `t.set` / `t.remove` with scope
`(cardId, 'shared', 'timezz_timer')`) is modelled as an association list
keyed by card id.  Timestamps (JS `Date` values / ISO strings) are
modelled as integer milliseconds since the epoch; JS number division is
modelled exactly with `Int` floor division or `Rat` where the source
keeps a fractional value.  Remote calls are modelled by an oracle
outcome parameter; the emitted request is returned as data so that
theorems can speak about which call was attempted.
-/

/-- Card identity as handed to the power-up callbacks by
`t.card('id','name','board')`.  `boardId` models `card.board.id`
(the frontend variant defaults a missing board to the string
"unknown" before it reaches the record; we model the already
resolved value). -/
structure CardData where
  id : String
  name : String
  boardId : String
deriving DecidableEq, Repr

/-- The host scoped key/value store restricted to the single key
`'timezz_timer'` in scope `'shared'`: one optional record per card id,
modelled as an association list. -/
abbrev Store (α : Type) := List (String × α)

/-- `t.get(cardId, 'shared', 'timezz_timer')`: the first binding for the
key, if any. -/
def storeGet {α : Type} : Store α → String → Option α
  | [], _ => none
  | (k, v) :: rest, c => if k = c then some v else storeGet rest c

/-- `t.remove(cardId, 'shared', 'timezz_timer')`: drop every binding for
the key. -/
def storeRemove {α : Type} : Store α → String → Store α
  | [], _ => []
  | (k, v) :: rest, c =>
      if k = c then storeRemove rest c else (k, v) :: storeRemove rest c

/-- `t.set(cardId, 'shared', 'timezz_timer', v)`: bind the key to `v`,
replacing any previous binding. -/
def storeSet {α : Type} (s : Store α) (c : String) (v : α) : Store α :=
  (c, v) :: storeRemove s c

/-- Number of persisted records satisfying `isAct` (used with the
`active` flag to count simultaneously-active timer records). -/
def countActive {α : Type} (isAct : α → Bool) (s : Store α) : Nat :=
  (s.filter (fun e => isAct e.2)).length

/-- Key-uniqueness of the association list; every store reachable from
the empty store through `storeSet` / `storeRemove` has it. -/
def NodupKeys {α : Type} (s : Store α) : Prop :=
  (s.map Prod.fst).Nodup

/-! ## Frontend variant (src/frontend/trello-powerup.js) -/

/-- The timer record written by the frontend `TimerManager.startTimer`:
`{active, startTime, cardId, cardName, boardId}`. -/
structure FRecord where
  active : Bool
  startTime : Int
  cardId : String
  cardName : String
  boardId : String
deriving DecidableEq, Repr

abbrev FStore := Store FRecord

/-- The `active` flag, the predicate `stopAnyRunningTimer` tests. -/
def fActive (r : FRecord) : Bool := r.active

/-- One iteration of the loop in `stopAnyRunningTimer`:
read `t.get(card.id,'shared','timezz_timer')`; if the record exists and
is active, `t.remove` it, otherwise leave the store alone. -/
def stopScanStep (s : FStore) (c : String) : FStore :=
  match storeGet s c with
  | some r => if r.active then storeRemove s c else s
  | none => s

/-- `TimerManager.stopAnyRunningTimer`: iterate the scan step over the
board's card list (`t.cards('id')`).  Errors in the loop are swallowed
by the surrounding try/catch in the source; local store operations are
modelled as succeeding. -/
def stopAnyRunningTimer (cards : List String) (s : FStore) : FStore :=
  cards.foldl stopScanStep s

/-- Every intermediate store state of the `stopAnyRunningTimer` scan,
including the state before the first step. -/
def scanStates : FStore → List String → List FStore
  | s, [] => [s]
  | s, c :: rest => s :: scanStates (stopScanStep s c) rest

/-- The record literal built inside the frontend `startTimer`:
`{active: true, startTime: new Date().toISOString(), cardId, cardName,
boardId}`. -/
def mkFRecord (card : CardData) (now : Int) : FRecord :=
  { active := true, startTime := now, cardId := card.id,
    cardName := card.name, boardId := card.boardId }

/-- Frontend `TimerManager.startTimer`: retire any running timer on the
board, then `t.set` the new record under the invoking card's id and
return it.  The subsequent `Utils.apiCall('/time/start', ...)` never
throws and its result is ignored by the source, so it does not appear in
the store-level semantics. -/
def fStartTimer (cards : List String) (s : FStore) (card : CardData)
    (now : Int) : FRecord × FStore :=
  let s1 := stopAnyRunningTimer cards s
  let r := mkFRecord card now
  (r, storeSet s1 card.id r)

/-- The result object of the frontend `stopTimer`: `{duration, success}`
(on the catch path the source adds an `error` message; no claim needs
it). -/
structure FStopResult where
  duration : Int
  success : Bool
deriving DecidableEq, Repr

/-- Frontend `TimerManager.stopTimer`: compute
`Math.floor((endTime - new Date(timerData.startTime)) / 1000)`, remove
the invoking card's record, call `Utils.apiCall('/time/stop','POST',{},t)`
— which swallows every failure and returns null — and return
`{duration, success: true}`.  Because `apiCall` cannot throw, the catch
branch of the source is unreachable unless the local `t.remove` itself
throws; local store operations are modelled as succeeding, so the result
is independent of the remote outcome `remoteOk`. -/
def fStopTimer (s : FStore) (invokingCard : String) (timerData : FRecord)
    (now : Int) (remoteOk : Bool) : FStopResult × FStore :=
  ({ duration := Int.fdiv (now - timerData.startTime) 1000, success := true },
   storeRemove s invokingCard)

/-- The guard computed in the frontend `card-buttons` handler:
`cardTimer && cardTimer.active && cardTimer.cardId === card.id`.
The stop callback is registered only when this is true. -/
def isThisCardActive (cardTimer : Option FRecord) (cardId : String) : Bool :=
  match cardTimer with
  | some tr => tr.active && tr.cardId == cardId
  | none => false

/-- Outcome of one `fetch` round trip as observed by `Utils.apiCall`:
either the fetch (or the token read) threw, or a response arrived with
an ok-flag and a body whose JSON parse may itself fail. -/
inductive FetchOutcome : Type
  | throwErr : FetchOutcome
  | response (ok : Bool) (parseOk : Bool) (body : String) : FetchOutcome
deriving DecidableEq, Repr

/-- Frontend `Utils.apiCall`: the whole body sits in one try/catch; a
thrown fetch, a thrown token read, or a failed body parse all land in
the catch (or the explicit non-ok branch) and yield null, modelled as
`none`; only an ok response with a parsable body yields the body. -/
def frontApiCall (endpoint method : String) (payload : Option String)
    (outcome : FetchOutcome) : Option String :=
  match outcome with
  | .throwErr => none
  | .response ok parseOk body =>
      if ok then (if parseOk then some body else none) else none

/-- A UI-level operation on the board: pressing start on a card, or
pressing stop on a card (the frontend stop removes the invoking card's
record). -/
inductive FOp : Type
  | start (card : CardData) (now : Int)
  | stop (cardId : String)
deriving DecidableEq, Repr

/-- Store effect of one frontend operation. -/
def applyFOp (cards : List String) (s : FStore) : FOp → FStore
  | .start card now => (fStartTimer cards s card now).2
  | .stop c => storeRemove s c

/-- All store states passed through while one operation executes,
beginning with the state the operation starts from: for a start, the
scan's intermediate states followed by the state after the final
`t.set`; for a stop, the state before and after the `t.remove`. -/
def fOpStates (cards : List String) (s : FStore) : FOp → List FStore
  | .start card now => scanStates s cards ++ [applyFOp cards s (.start card now)]
  | .stop c => [s, storeRemove s c]

/-- Every store state passed through while a sequence of operations
executes sequentially. -/
def runStates (cards : List String) : FStore → List FOp → List FStore
  | s, [] => [s]
  | s, op :: rest => fOpStates cards s op ++ runStates cards (applyFOp cards s op) rest

/-- Final store after a sequence of frontend operations. -/
def runFOps (cards : List String) (s : FStore) (ops : List FOp) : FStore :=
  ops.foldl (applyFOp cards) s

/-- A start operation only ever targets a card of the board
(`t.cards('id')` lists every card, and the button sits on a card of the
board). -/
def startsOnBoard (cards : List String) : FOp → Bool
  | .start card _ => cards.contains card.id
  | .stop _ => true

/-! ## Trello-powerup variant (src/trello-powerup/trello-powerup.js) -/

/-- The timer record of the trello-powerup variant: `{active, startTime,
cardId, cardName}` plus the `offline` flag that the catch branch of
`startTimer` adds (absent models as `false`). -/
structure PRecord where
  active : Bool
  startTime : Int
  cardId : String
  cardName : String
  offline : Bool
deriving DecidableEq, Repr

abbrev PStore := Store PRecord

/-- The record literal built by the trello-powerup `startTimer`
(`offline` present only on the catch path). -/
def mkPRecord (card : CardData) (now : Int) (offline : Bool) : PRecord :=
  { active := true, startTime := now, cardId := card.id,
    cardName := card.name, offline := offline }

/-- Trello-powerup `TimerManager.startTimer`.  The try block writes the
record and calls `apiCall('/time/start', ...)`, which rethrows failures;
the catch block reads the clock again and writes a fresh record with
`offline: true`.  `remoteOk` is the remote outcome; `localOk1` and
`localOk2` model whether the first and second `t.set` succeed, so the
exception behaviour ("may raise only when the local write fails") is
visible: the result is `.error` exactly on the paths where the source
lets a storage exception escape.  The returned store reflects the writes
that took effect before any escape.  `t1` is the clock at the first
`new Date()`, `t2` at the one inside the catch. -/
def puStartTimer (s : PStore) (card : CardData) (t1 t2 : Int)
    (remoteOk localOk1 localOk2 : Bool) : Except Unit PRecord × PStore :=
  if localOk1 then
    let s1 := storeSet s card.id (mkPRecord card t1 false)
    if remoteOk then (.ok (mkPRecord card t1 false), s1)
    else if localOk2 then
      (.ok (mkPRecord card t2 true), storeSet s1 card.id (mkPRecord card t2 true))
    else (.error (), s1)
  else
    if localOk2 then
      (.ok (mkPRecord card t2 true), storeSet s card.id (mkPRecord card t2 true))
    else (.error (), s)

/-- The payload of `apiCall('/time/entries','POST', ...)` built in the
offline branch of the trello-powerup `stopTimer`. -/
structure TimeEntry where
  card_id : String
  card_name : String
  start_time : Int
  end_time : Int
  duration_minutes : Int
  description : String
deriving DecidableEq, Repr

/-- The one remote call the trello-powerup `stopTimer` attempts:
`POST /time/stop` with no body, or `POST /time/entries` carrying a
reconstructed entry. -/
inductive PRemoteCall : Type
  | stop : PRemoteCall
  | entries (e : TimeEntry) : PRemoteCall
deriving DecidableEq, Repr

/-- JS `Math.round`: round half away from zero upward, i.e.
`Math.round(x) = Math.floor(x + 0.5)`. -/
def jsRound (x : ℚ) : Int := Int.floor (x + 1/2)

/-- The result object of the trello-powerup `stopTimer`: `{duration}` on
success (the absent `error` field models as `false`), `{duration: 0,
error: true}` on the catch path.  `duration` is the JS number
`(endTime - startTime) / 1000`, kept exact as a rational. -/
structure PStopResult where
  duration : ℚ
  error : Bool
deriving DecidableEq, Repr

/-- Trello-powerup `TimerManager.stopTimer`: compute the duration, remove
the record, then attempt exactly one remote call — `'/time/stop'` with
no body when the record was synced (`offline` absent/false), else
`'/time/entries'` with a reconstructed entry whose `duration_minutes` is
`Math.round(duration / 60)`.  When the call throws (`remoteOk = false`)
the catch removes the record again and returns `{duration: 0, error:
true}`.  The third component is the request that was attempted. -/
def puStopTimer (s : PStore) (invokingCard : String) (timerData : PRecord)
    (now : Int) (remoteOk : Bool) : PStopResult × PStore × PRemoteCall :=
  let duration : ℚ := ((now - timerData.startTime : Int) : ℚ) / 1000
  let call : PRemoteCall :=
    if timerData.offline then
      .entries { card_id := timerData.cardId, card_name := timerData.cardName,
                 start_time := timerData.startTime, end_time := now,
                 duration_minutes := jsRound (duration / 60),
                 description := "Offline timer entry" }
    else .stop
  if remoteOk then
    ({ duration := duration, error := false }, storeRemove s invokingCard, call)
  else
    ({ duration := 0, error := true }, storeRemove s invokingCard, call)

/-! ## Store lemmas -/

theorem storeGet_storeRemove_self {α : Type} (s : Store α) (c : String) :
    storeGet (storeRemove s c) c = none := by
  induction s with
  | nil => rfl
  | cons e rest ih =>
    obtain ⟨k, v⟩ := e
    by_cases h : k = c
    · simpa [storeRemove, h] using ih
    · simp [storeRemove, storeGet, h, ih]

theorem storeGet_storeRemove_ne {α : Type} (s : Store α) (c other : String)
    (h : other ≠ c) : storeGet (storeRemove s c) other = storeGet s other := by
  induction s with
  | nil => rfl
  | cons e rest ih =>
    obtain ⟨k, v⟩ := e
    by_cases hk : k = c
    · have hco : c ≠ other := fun hh => h hh.symm
      simp [storeRemove, storeGet, hk, hco, ih]
    · simp [storeRemove, storeGet, hk, ih]

theorem mem_storeRemove {α : Type} {s : Store α} {c : String} {e : String × α}
    (h : e ∈ storeRemove s c) : e ∈ s ∧ e.1 ≠ c := by
  induction s with
  | nil => simp [storeRemove] at h
  | cons f rest ih =>
    obtain ⟨k, v⟩ := f
    simp only [storeRemove] at h
    by_cases hk : k = c
    · rw [if_pos hk] at h
      exact ⟨List.mem_cons_of_mem _ (ih h).1, (ih h).2⟩
    · rw [if_neg hk] at h
      rcases List.mem_cons.mp h with h1 | h2
      · refine ⟨List.mem_cons.mpr (Or.inl h1), ?_⟩
        rw [h1]
        exact hk
      · exact ⟨List.mem_cons_of_mem _ (ih h2).1, (ih h2).2⟩

theorem storeRemove_sublist {α : Type} (s : Store α) (c : String) :
    List.Sublist (storeRemove s c) s := by
  induction s with
  | nil => simp [storeRemove]
  | cons f rest ih =>
    obtain ⟨k, v⟩ := f
    simp only [storeRemove]
    by_cases hk : k = c
    · rw [if_pos hk]
      exact List.Sublist.cons _ ih
    · rw [if_neg hk]
      exact List.Sublist.cons₂ _ ih

theorem storeGet_ne_none_of_mem {α : Type} {s : Store α} {c : String} {v : α}
    (h : (c, v) ∈ s) : storeGet s c ≠ none := by
  induction s with
  | nil => simp at h
  | cons f rest ih =>
    obtain ⟨k, w⟩ := f
    rcases List.mem_cons.mp h with h1 | h2
    · have hk : k = c := (Prod.mk.injEq k w c v).mp h1.symm |>.1
      simp [storeGet, hk]
    · by_cases hk : k = c
      · simp [storeGet, hk]
      · simpa [storeGet, hk] using ih h2

theorem storeGet_eq_some_of_mem {α : Type} {s : Store α} {c : String} {v : α}
    (hs : NodupKeys s) (h : (c, v) ∈ s) : storeGet s c = some v := by
  induction s with
  | nil => simp at h
  | cons f rest ih =>
    obtain ⟨k, w⟩ := f
    have hs' : NodupKeys rest := (List.nodup_cons.mp hs).2
    rcases List.mem_cons.mp h with h1 | h2
    · have hk : k = c := (Prod.mk.injEq k w c v).mp h1.symm |>.1
      have hv : w = v := (Prod.mk.injEq k w c v).mp h1.symm |>.2
      simp [storeGet, hk, hv]
    · have hk : k ≠ c := by
        intro hkc
        apply (List.nodup_cons.mp hs).1
        have : c ∈ rest.map Prod.fst := List.mem_map.mpr ⟨(c, v), h2, rfl⟩
        rw [hkc]
        exact this
      simpa [storeGet, hk] using ih hs' h2

theorem countActive_le_of_sublist {α : Type} (isAct : α → Bool) {s t : Store α}
    (h : List.Sublist s t) : countActive isAct s ≤ countActive isAct t :=
  (h.filter _).length_le

theorem countActive_eq_zero {α : Type} {isAct : α → Bool} :
    ∀ {s : Store α}, (∀ e ∈ s, isAct e.2 = false) → countActive isAct s = 0
  | [], _ => rfl
  | e :: rest, h => by
      have he : isAct e.2 = false := h e (List.mem_cons_self e rest)
      have hr : countActive isAct rest = 0 :=
        countActive_eq_zero (fun f hf => h f (List.mem_cons_of_mem e hf))
      simpa [countActive, List.filter_cons, he] using hr

theorem countActive_storeSet_active {α : Type} (isAct : α → Bool) (s : Store α)
    (c : String) (v : α) (hv : isAct v = true) :
    countActive isAct (storeSet s c v) =
      countActive isAct (storeRemove s c) + 1 := by
  simp [storeSet, countActive, List.filter_cons, hv]

theorem nodupKeys_of_sublist {α : Type} {s t : Store α} (h : List.Sublist s t)
    (ht : NodupKeys t) : NodupKeys s :=
  ht.sublist (h.map Prod.fst)

theorem nodupKeys_storeSet {α : Type} (s : Store α) (c : String) (v : α)
    (hs : NodupKeys s) : NodupKeys (storeSet s c v) := by
  have h1 : NodupKeys (storeRemove s c) :=
    nodupKeys_of_sublist (storeRemove_sublist s c) hs
  have h2 : c ∉ (storeRemove s c).map Prod.fst := by
    intro hmem
    obtain ⟨e, he, hfst⟩ := List.mem_map.mp hmem
    exact (mem_storeRemove he).2 hfst
  exact List.nodup_cons.mpr ⟨h2, h1⟩

/-! ## Frontend scan lemmas -/

theorem stopScanStep_sublist (s : FStore) (c : String) :
    List.Sublist (stopScanStep s c) s := by
  unfold stopScanStep
  cases hg : storeGet s c with
  | none => exact List.Sublist.refl s
  | some r =>
    show List.Sublist (if r.active then storeRemove s c else s) s
    by_cases h : r.active
    · rw [if_pos h]
      exact storeRemove_sublist s c
    · rw [if_neg h]

theorem stopAnyRunningTimer_sublist (cards : List String) (s : FStore) :
    List.Sublist (stopAnyRunningTimer cards s) s := by
  induction cards generalizing s with
  | nil => exact List.Sublist.refl s
  | cons c rest ih =>
    have h1 : stopAnyRunningTimer (c :: rest) s =
        stopAnyRunningTimer rest (stopScanStep s c) := rfl
    rw [h1]
    exact (ih (stopScanStep s c)).trans (stopScanStep_sublist s c)

theorem stopAnyRunningTimer_nil (cards : List String) :
    stopAnyRunningTimer cards [] = [] := by
  induction cards with
  | nil => rfl
  | cons c rest ih =>
    have h1 : stopAnyRunningTimer (c :: rest) ([] : FStore) =
        stopAnyRunningTimer rest (stopScanStep [] c) := rfl
    rw [h1]
    exact ih

theorem scan_singleton_active {c : String} {r : FRecord} (hr : r.active = true)
    (l : List String) (hc : c ∈ l) :
    stopAnyRunningTimer l [(c, r)] = [] := by
  induction l with
  | nil => simp at hc
  | cons d rest ih =>
    have h1 : stopAnyRunningTimer (d :: rest) [(c, r)] =
        stopAnyRunningTimer rest (stopScanStep [(c, r)] d) := rfl
    rw [h1]
    by_cases hd : d = c
    · have hstep : stopScanStep [(c, r)] d = [] := by
        simp [stopScanStep, storeGet, hd, hr, storeRemove]
      rw [hstep]
      exact stopAnyRunningTimer_nil rest
    · have hcd : c ≠ d := fun h => hd h.symm
      have hstep : stopScanStep [(c, r)] d = [(c, r)] := by
        simp [stopScanStep, storeGet, hcd]
      rw [hstep]
      have hcrest : c ∈ rest := by
        rcases List.mem_cons.mp hc with h | h
        · exact absurd h hcd
        · exact h
      exact ih hcrest

theorem countActive_scan_zero (l : List String) :
    ∀ s : FStore, NodupKeys s → (∀ e ∈ s, fActive e.2 = true → e.1 ∈ l) →
    countActive fActive (stopAnyRunningTimer l s) = 0 := by
  induction l with
  | nil =>
    intro s _ hact
    exact countActive_eq_zero (fun e he => by
      by_contra hne
      have : fActive e.2 = true := by
        cases hb : fActive e.2
        · exact absurd hb hne
        · rfl
      simpa using hact e he this)
  | cons c rest ih =>
    intro s hs hact
    have h1 : stopAnyRunningTimer (c :: rest) s =
        stopAnyRunningTimer rest (stopScanStep s c) := rfl
    rw [h1]
    apply ih (stopScanStep s c)
      (nodupKeys_of_sublist (stopScanStep_sublist s c) hs)
    intro e he hac
    have hes : e ∈ s := (stopScanStep_sublist s c).subset he
    have hmem : e.1 ∈ c :: rest := hact e hes hac
    rcases List.mem_cons.mp hmem with h1c | h2
    · exfalso
      obtain ⟨e1, e2⟩ := e
      simp only at h1c
      subst h1c
      cases hg : storeGet s e1 with
      | none =>
        exact storeGet_ne_none_of_mem hes hg
      | some r =>
        by_cases hr : r.active
        · have hstep : stopScanStep s e1 = storeRemove s e1 := by
            simp [stopScanStep, hg, hr]
          rw [hstep] at he
          exact (mem_storeRemove he).2 rfl
        · have hget : storeGet s e1 = some e2 := storeGet_eq_some_of_mem hs hes
          rw [hg] at hget
          have : e2 = r := by injection hget.symm
          rw [this] at hac
          exact hr (by simpa [fActive] using hac)
    · exact h2

theorem scanStates_count_le (l : List String) :
    ∀ (s s' : FStore), s' ∈ scanStates s l →
      countActive fActive s' ≤ countActive fActive s := by
  induction l with
  | nil =>
    intro s s' h
    simp only [scanStates, List.mem_singleton] at h
    rw [h]
  | cons c rest ih =>
    intro s s' h
    simp only [scanStates, List.mem_cons] at h
    rcases h with h | h
    · rw [h]
    · exact le_trans (ih _ _ h)
        (countActive_le_of_sublist _ (stopScanStep_sublist s c))

/-! ## Frontend lifecycle invariant -/

/-- Invariant of every store reachable by the frontend manager on a
board with card list `cards`: keys are unique, every key is a card of
the board, and at most one record is active. -/
def FInv (cards : List String) (s : FStore) : Prop :=
  NodupKeys s ∧ (∀ e ∈ s, e.1 ∈ cards) ∧ countActive fActive s ≤ 1

theorem fInv_empty (cards : List String) : FInv cards [] := by
  refine ⟨List.nodup_nil, ?_, ?_⟩
  · intro e he
    simp at he
  · exact Nat.zero_le 1

theorem startsOnBoard_start {cards : List String} {card : CardData} {now : Int}
    (h : startsOnBoard cards (.start card now) = true) : card.id ∈ cards := by
  simpa [startsOnBoard] using h

theorem fStartTimer_store (cards : List String) (s : FStore) (card : CardData)
    (now : Int) :
    (fStartTimer cards s card now).2 =
      storeSet (stopAnyRunningTimer cards s) card.id (mkFRecord card now) := rfl

theorem fInv_applyFOp {cards : List String} {s : FStore} {op : FOp}
    (hs : FInv cards s) (hop : startsOnBoard cards op = true) :
    FInv cards (applyFOp cards s op) := by
  obtain ⟨hnd, hkeys, hcnt⟩ := hs
  cases op with
  | stop c =>
    refine ⟨nodupKeys_of_sublist (storeRemove_sublist s c) hnd, ?_, ?_⟩
    · intro e he
      exact hkeys e (mem_storeRemove he).1
    · exact le_trans (countActive_le_of_sublist _ (storeRemove_sublist s c)) hcnt
  | start card now =>
    have hcard : card.id ∈ cards := startsOnBoard_start hop
    have hsub := stopAnyRunningTimer_sublist cards s
    have hnd1 : NodupKeys (stopAnyRunningTimer cards s) :=
      nodupKeys_of_sublist hsub hnd
    have hzero : countActive fActive (stopAnyRunningTimer cards s) = 0 :=
      countActive_scan_zero cards s hnd (fun e he _ => hkeys e he)
    show FInv cards (storeSet (stopAnyRunningTimer cards s) card.id (mkFRecord card now))
    refine ⟨nodupKeys_storeSet _ _ _ hnd1, ?_, ?_⟩
    · intro e he
      rcases List.mem_cons.mp he with h1 | h2
      · rw [h1]
        exact hcard
      · exact hkeys e (hsub.subset (mem_storeRemove h2).1)
    · rw [countActive_storeSet_active fActive _ card.id (mkFRecord card now) rfl]
      have : countActive fActive (storeRemove (stopAnyRunningTimer cards s) card.id) = 0 :=
        Nat.le_zero.mp (le_trans
          (countActive_le_of_sublist _ (storeRemove_sublist _ card.id))
          (Nat.le_of_eq hzero))
      rw [this]

theorem fOpStates_count_le {cards : List String} {s : FStore} {op : FOp}
    (hs : FInv cards s) (hop : startsOnBoard cards op = true) :
    ∀ s' ∈ fOpStates cards s op, countActive fActive s' ≤ 1 := by
  intro s' h
  cases op with
  | stop c =>
    rcases List.mem_cons.mp h with h1 | h2
    · rw [h1]
      exact hs.2.2
    · have : s' = storeRemove s c := by simpa [fOpStates] using h2
      rw [this]
      exact le_trans (countActive_le_of_sublist _ (storeRemove_sublist s c)) hs.2.2
  | start card now =>
    simp only [fOpStates, List.mem_append, List.mem_singleton] at h
    rcases h with h | h
    · exact le_trans (scanStates_count_le cards s s' h) hs.2.2
    · rw [h]
      exact (fInv_applyFOp hs hop).2.2

theorem runStates_count_le (cards : List String) (ops : List FOp) :
    ∀ s : FStore, FInv cards s → (∀ op ∈ ops, startsOnBoard cards op = true) →
    ∀ s' ∈ runStates cards s ops, countActive fActive s' ≤ 1 := by
  induction ops with
  | nil =>
    intro s hs _ s' h
    simp only [runStates, List.mem_singleton] at h
    rw [h]
    exact hs.2.2
  | cons op rest ih =>
    intro s hs hops s' h
    simp only [runStates, List.mem_append] at h
    rcases h with h | h
    · exact fOpStates_count_le hs (hops op (List.mem_cons_self op rest)) s' h
    · exact ih (applyFOp cards s op)
        (fInv_applyFOp hs (hops op (List.mem_cons_self op rest)))
        (fun o ho => hops o (List.mem_cons_of_mem op ho)) s' h

/-! ## Claim theorems -/

/-- C1: in the frontend variant, `start(A)` followed by `start(B)` with
`B ≠ A` — a single actor starting from the empty store — leaves exactly
one active record, keyed by `B`, with `A`'s record absent; and because
`stopAnyRunningTimer` retires `A`'s record before `B`'s is written,
every store state passed through (the scan's intermediate states
included) holds at most one active record.  `hA` records that `A` is a
card of the board, i.e. appears in the list `t.cards('id')` hands to the
scan. -/
theorem c1_switch_retires_old (cards : List String) (A B : CardData)
    (t0 t1 : Int) (hAB : A.id ≠ B.id) (hA : A.id ∈ cards) :
    (∀ s' ∈ runStates cards [] [FOp.start A t0, FOp.start B t1],
        countActive fActive s' ≤ 1) ∧
    runFOps cards [] [FOp.start A t0, FOp.start B t1] =
      [(B.id, mkFRecord B t1)] ∧
    storeGet (runFOps cards [] [FOp.start A t0, FOp.start B t1]) A.id = none ∧
    countActive fActive (runFOps cards [] [FOp.start A t0, FOp.start B t1]) = 1 := by
  have hone : ∀ (c : String) (r : FRecord), r.active = true →
      countActive fActive [(c, r)] = 1 := by
    intro c r hr
    simp [countActive, fActive, hr]
  have hs1 : applyFOp cards [] (FOp.start A t0) = [(A.id, mkFRecord A t0)] := by
    show storeSet (stopAnyRunningTimer cards []) A.id (mkFRecord A t0) = _
    rw [stopAnyRunningTimer_nil]
    rfl
  have hscan2 : stopAnyRunningTimer cards [(A.id, mkFRecord A t0)] = [] :=
    scan_singleton_active rfl cards hA
  have hs2 : applyFOp cards [(A.id, mkFRecord A t0)] (FOp.start B t1) =
      [(B.id, mkFRecord B t1)] := by
    show storeSet (stopAnyRunningTimer cards [(A.id, mkFRecord A t0)]) B.id
      (mkFRecord B t1) = _
    rw [hscan2]
    rfl
  have hfinal : runFOps cards [] [FOp.start A t0, FOp.start B t1] =
      [(B.id, mkFRecord B t1)] := by
    show applyFOp cards (applyFOp cards [] (FOp.start A t0)) (FOp.start B t1) = _
    rw [hs1, hs2]
  refine ⟨?_, hfinal, ?_, ?_⟩
  · intro s' h
    simp only [runStates, hs1, List.mem_append] at h
    rcases h with h | h
    · exact fOpStates_count_le (fInv_empty cards)
        (by simpa [startsOnBoard] using hA) s' h
    · simp only [runStates, fOpStates, hs2, List.mem_append, List.mem_cons,
        List.not_mem_nil, or_false, or_self, List.mem_singleton] at h
      rcases h with (h | h) | h
      · have := scanStates_count_le cards [(A.id, mkFRecord A t0)] s' h
        rw [hone A.id _ rfl] at this
        exact this
      · rw [h, hone B.id _ rfl]
      · rw [h, hone B.id _ rfl]
  · rw [hfinal]
    simp [storeGet, Ne.symm hAB]
  · rw [hfinal]
    exact hone B.id _ rfl

/-- C1 witness: the theorem applied to the board `["cardA","cardB"]`,
subjects `cardA` and `cardB`, start times 0 and 5000 ms. -/
theorem c1_switch_retires_old_witness :
    (∀ s' ∈ runStates ["cardA", "cardB"] []
        [FOp.start ⟨"cardA", "Task A", "board1"⟩ 0,
         FOp.start ⟨"cardB", "Task B", "board1"⟩ 5000],
        countActive fActive s' ≤ 1) ∧
    runFOps ["cardA", "cardB"] []
        [FOp.start ⟨"cardA", "Task A", "board1"⟩ 0,
         FOp.start ⟨"cardB", "Task B", "board1"⟩ 5000] =
      [("cardB", mkFRecord ⟨"cardB", "Task B", "board1"⟩ 5000)] ∧
    storeGet (runFOps ["cardA", "cardB"] []
        [FOp.start ⟨"cardA", "Task A", "board1"⟩ 0,
         FOp.start ⟨"cardB", "Task B", "board1"⟩ 5000]) "cardA" = none ∧
    countActive fActive (runFOps ["cardA", "cardB"] []
        [FOp.start ⟨"cardA", "Task A", "board1"⟩ 0,
         FOp.start ⟨"cardB", "Task B", "board1"⟩ 5000]) = 1 :=
  c1_switch_retires_old ["cardA", "cardB"] ⟨"cardA", "Task A", "board1"⟩
    ⟨"cardB", "Task B", "board1"⟩ 0 5000 (by decide) (by decide)

/-- C2 (amended): in the frontend variant — whose `startTimer` retires
every active record on the board before writing — every store state
reached by a sequential run of start/stop operations from the empty
store holds at most one active record, provided every started card is a
card of the board.  (The claim as stated is false for the
trello-powerup variant, whose `startTimer` performs no retire scan; see
the counterexample.) -/
theorem c2_at_most_one_active_frontend (cards : List String) (ops : List FOp)
    (hops : ∀ op ∈ ops, startsOnBoard cards op = true) :
    ∀ s' ∈ runStates cards [] ops, countActive fActive s' ≤ 1 :=
  runStates_count_le cards ops [] (fInv_empty cards) hops

/-- C2 witness: a start/start/stop run on a two-card board, evaluated
at the state reached after the whole run. -/
theorem c2_at_most_one_active_frontend_witness :
    countActive fActive (runFOps ["cardA", "cardB"] []
        [FOp.start ⟨"cardA", "Task A", "board1"⟩ 0,
         FOp.start ⟨"cardB", "Task B", "board1"⟩ 5000,
         FOp.stop "cardB"]) ≤ 1 :=
  c2_at_most_one_active_frontend ["cardA", "cardB"]
    [FOp.start ⟨"cardA", "Task A", "board1"⟩ 0,
     FOp.start ⟨"cardB", "Task B", "board1"⟩ 5000,
     FOp.stop "cardB"] (by decide)
    (runFOps ["cardA", "cardB"] []
      [FOp.start ⟨"cardA", "Task A", "board1"⟩ 0,
       FOp.start ⟨"cardB", "Task B", "board1"⟩ 5000,
       FOp.stop "cardB"]) (by decide)

/-- C2 counterexample: the trello-powerup variant's `startTimer` writes
the new record without retiring the old one, so `start(cardA)` then
`start(cardB)` from the empty store leaves two simultaneously-active
records on the board. -/
theorem c2_counterexample_powerup_two_active :
    countActive (fun r : PRecord => r.active)
      (puStartTimer
        (puStartTimer [] ⟨"cardA", "Task A", "board1"⟩ 0 0 true true true).2
        ⟨"cardB", "Task B", "board1"⟩ 5000 5000 true true true).2 = 2 := by
  decide

/-- C5 (amended): in the frontend variant a second `start(A)` while `A`
is already active is not a no-op: `stopAnyRunningTimer` retires `A`'s
record and a fresh record is written and returned whose `startedAt` is
the second call's clock reading `t1`, not the original `t0`. -/
theorem c5_restart_rewrites (cards : List String) (A : CardData)
    (t0 t1 : Int) (hA : A.id ∈ cards) :
    runFOps cards [] [FOp.start A t0, FOp.start A t1] =
      [(A.id, mkFRecord A t1)] ∧
    (fStartTimer cards (runFOps cards [] [FOp.start A t0]) A t1).1 =
      mkFRecord A t1 := by
  have hs1 : applyFOp cards [] (FOp.start A t0) = [(A.id, mkFRecord A t0)] := by
    show storeSet (stopAnyRunningTimer cards []) A.id (mkFRecord A t0) = _
    rw [stopAnyRunningTimer_nil]
    rfl
  have hscan2 : stopAnyRunningTimer cards [(A.id, mkFRecord A t0)] = [] :=
    scan_singleton_active rfl cards hA
  constructor
  · show applyFOp cards (applyFOp cards [] (FOp.start A t0)) (FOp.start A t1) = _
    rw [hs1]
    show storeSet (stopAnyRunningTimer cards [(A.id, mkFRecord A t0)]) A.id
      (mkFRecord A t1) = _
    rw [hscan2]
    rfl
  · rfl

/-- C5 witness: concrete two-start run on a one-card board. -/
theorem c5_restart_rewrites_witness :
    runFOps ["cardA"] []
        [FOp.start ⟨"cardA", "Task A", "board1"⟩ 0,
         FOp.start ⟨"cardA", "Task A", "board1"⟩ 5000] =
      [("cardA", mkFRecord ⟨"cardA", "Task A", "board1"⟩ 5000)] ∧
    (fStartTimer ["cardA"]
        (runFOps ["cardA"] [] [FOp.start ⟨"cardA", "Task A", "board1"⟩ 0])
        ⟨"cardA", "Task A", "board1"⟩ 5000).1 =
      mkFRecord ⟨"cardA", "Task A", "board1"⟩ 5000 :=
  c5_restart_rewrites ["cardA"] ⟨"cardA", "Task A", "board1"⟩ 0 5000 (by decide)

/-- C5 counterexample: starting `cardA` at t = 0 ms persists
`startedAt = 0`; a second `start(cardA)` at t = 5000 ms persists
`startedAt = 5000 ≠ 0`, refuting "the persisted startedAt after the
second call equals the startedAt written by the first call". -/
theorem c5_counterexample_startedAt_changes :
    (storeGet (runFOps ["cardA"] []
        [FOp.start ⟨"cardA", "Task A", "board1"⟩ 0]) "cardA").map
      FRecord.startTime = some 0 ∧
    (storeGet (runFOps ["cardA"] []
        [FOp.start ⟨"cardA", "Task A", "board1"⟩ 0,
         FOp.start ⟨"cardA", "Task A", "board1"⟩ 5000]) "cardA").map
      FRecord.startTime = some 5000 ∧
    (5000 : Int) ≠ 0 := by
  decide

/-- C3 (amended): the frontend `stopTimer` deletes the invoking card's
record in all cases — the remote outcome cannot prevent it, because
`Utils.apiCall` swallows every failure — and returns without an
exception; but the result is `{duration, success: true}` for every
remote outcome, so a remote failure is not surfaced as a
`remoteAcknowledged: false` field. -/
theorem c3_stop_always_deletes (s : FStore) (c : String) (r : FRecord)
    (now : Int) (remoteOk : Bool) :
    (fStopTimer s c r now remoteOk).1 =
      { duration := Int.fdiv (now - r.startTime) 1000, success := true } ∧
    storeGet (fStopTimer s c r now remoteOk).2 c = none :=
  ⟨rfl, storeGet_storeRemove_self s c⟩

/-- C3 counterexample: stopping an active record at t = 125000 ms with
the remote call failing returns `{duration: 125, success: true}` — the
record is gone, but the result does not carry
`remoteAcknowledged: false`; the failure is invisible to the caller. -/
theorem c3_counterexample_failure_reports_success :
    (fStopTimer [("card1", mkFRecord ⟨"card1", "Design doc", "board1"⟩ 0)]
        "card1" (mkFRecord ⟨"card1", "Design doc", "board1"⟩ 0)
        125000 false).1 = { duration := 125, success := true } ∧
    storeGet (fStopTimer
        [("card1", mkFRecord ⟨"card1", "Design doc", "board1"⟩ 0)]
        "card1" (mkFRecord ⟨"card1", "Design doc", "board1"⟩ 0)
        125000 false).2 "card1" = none := by
  decide

/-- C4: the trello-powerup `stopTimer` attempts exactly one remote call
and branches on the record's sync state: for a synced record (`offline`
absent/false) it is the bodiless `/time/stop`; for a pending record
(`offline: true`) it is one complete `/time/entries` submission built
from the record's startedAt and now, with
`duration_minutes = Math.round(durationSeconds / 60)` and the
description marking the reconstructed offline entry. -/
theorem c4_stop_remote_branch (s : PStore) (c : String) (r : PRecord)
    (now : Int) (remoteOk : Bool) :
    (r.offline = false →
      (puStopTimer s c r now remoteOk).2.2 = PRemoteCall.stop) ∧
    (r.offline = true →
      (puStopTimer s c r now remoteOk).2.2 = PRemoteCall.entries
        { card_id := r.cardId, card_name := r.cardName,
          start_time := r.startTime, end_time := now,
          duration_minutes :=
            jsRound (((now - r.startTime : Int) : ℚ) / 1000 / 60),
          description := "Offline timer entry" }) := by
  constructor
  · intro h
    cases remoteOk <;> simp [puStopTimer, h]
  · intro h
    cases remoteOk <;> simp [puStopTimer, h]

/-- C4 witness: the spec scenario — a pending record started at t = 0
and stopped at t = 125000 ms submits one reconstructed entry with
`duration_minutes = 2` (125 s rounded to minutes). -/
theorem c4_stop_remote_branch_witness :
    (puStopTimer
        [("card1", mkPRecord ⟨"card1", "Design doc", "board1"⟩ 0 true)]
        "card1" (mkPRecord ⟨"card1", "Design doc", "board1"⟩ 0 true)
        125000 false).2.2 = PRemoteCall.entries
      { card_id := "card1", card_name := "Design doc", start_time := 0,
        end_time := 125000, duration_minutes := 2,
        description := "Offline timer entry" } := by
  have h := (c4_stop_remote_branch
    [("card1", mkPRecord ⟨"card1", "Design doc", "board1"⟩ 0 true)]
    "card1" (mkPRecord ⟨"card1", "Design doc", "board1"⟩ 0 true)
    125000 false).2 rfl
  rw [h]
  norm_num [jsRound, mkPRecord]

/-- C6: the trello-powerup `startTimer` under remote failure with the
local writes succeeding returns the locally written record — still
persisted under the card's id, active, carrying the pending marker
`offline = true` — instead of raising; and an exception escapes only
when the local store write fails (the error paths all have the
catch-path `t.set` failing). -/
theorem c6_start_remote_failure_returns_local (s : PStore) (card : CardData)
    (t1 t2 : Int) (remoteOk : Bool) (h : remoteOk = false) :
    (puStartTimer s card t1 t2 remoteOk true true).1 =
      Except.ok (mkPRecord card t2 true) ∧
    storeGet (puStartTimer s card t1 t2 remoteOk true true).2 card.id =
      some (mkPRecord card t2 true) ∧
    (mkPRecord card t2 true).active = true ∧
    (mkPRecord card t2 true).offline = true ∧
    (∀ ro lo1 lo2 : Bool,
      (puStartTimer s card t1 t2 ro lo1 lo2).1 = Except.error () →
        lo2 = false) := by
  subst h
  refine ⟨rfl, ?_, rfl, rfl, ?_⟩
  · show storeGet (storeSet _ card.id (mkPRecord card t2 true)) card.id = _
    simp [storeSet, storeGet]
  · intro ro lo1 lo2 hE
    cases ro <;> cases lo1 <;> cases lo2 <;> simp_all [puStartTimer]

/-- C6 witness: concrete offline start — the returned record is the
persisted pending record. -/
theorem c6_start_remote_failure_witness :
    (puStartTimer [] ⟨"card1", "Design doc", "board1"⟩ 0 0 false true true).1 =
      Except.ok (mkPRecord ⟨"card1", "Design doc", "board1"⟩ 0 true) ∧
    storeGet (puStartTimer [] ⟨"card1", "Design doc", "board1"⟩ 0 0
        false true true).2 "card1" =
      some (mkPRecord ⟨"card1", "Design doc", "board1"⟩ 0 true) :=
  ⟨(c6_start_remote_failure_returns_local [] ⟨"card1", "Design doc", "board1"⟩
      0 0 false rfl).1,
   (c6_start_remote_failure_returns_local [] ⟨"card1", "Design doc", "board1"⟩
      0 0 false rfl).2.1⟩

/-- C7 (amended): the code defines no NotActiveError.  The frontend
card-buttons guard offers the stop callback only when the card's record
exists, is active and matches the card, so a UI stop for a subject with
no active record cannot run; and `stopTimer` only removes the invoking
card's key — every other subject's record is untouched.  (Invoked
directly on a present-but-inactive record, `stopTimer` does not fail:
it removes the record and reports success; see the counterexample.) -/
theorem c7_stop_guard_and_isolation (s : FStore) (c other : String)
    (r : FRecord) (now : Int) (remoteOk : Bool) (h : other ≠ c) :
    storeGet (fStopTimer s c r now remoteOk).2 other = storeGet s other ∧
    isThisCardActive none c = false ∧
    (∀ tr : FRecord, tr.active = false →
      isThisCardActive (some tr) c = false) ∧
    (∀ tr : FRecord, isThisCardActive (some tr) c = true →
      tr.active = true ∧ tr.cardId = c) := by
  refine ⟨storeGet_storeRemove_ne s c other h, rfl, ?_, ?_⟩
  · intro tr htr
    simp [isThisCardActive, htr]
  · intro tr htr
    simpa [isThisCardActive] using htr

/-- C7 witness: stopping `cardA` leaves `cardB`'s record exactly as it
was. -/
theorem c7_stop_guard_and_isolation_witness :
    storeGet (fStopTimer
        [("cardB", mkFRecord ⟨"cardB", "Task B", "board1"⟩ 0)] "cardA"
        (mkFRecord ⟨"cardA", "Task A", "board1"⟩ 0) 5000 true).2 "cardB" =
      storeGet [("cardB", mkFRecord ⟨"cardB", "Task B", "board1"⟩ 0)] "cardB" :=
  (c7_stop_guard_and_isolation
    [("cardB", mkFRecord ⟨"cardB", "Task B", "board1"⟩ 0)] "cardA" "cardB"
    (mkFRecord ⟨"cardA", "Task A", "board1"⟩ 0) 5000 true (by decide)).1

/-- C7 counterexample: `stopTimer` on a present record with
`active = false` does not fail with NotActiveError and does not leave
the store unchanged: it removes the record and reports success. -/
theorem c7_counterexample_inactive_stop_succeeds :
    (fStopTimer [("card1",
        { active := false, startTime := 0, cardId := "card1",
          cardName := "Task", boardId := "board1" })] "card1"
      { active := false, startTime := 0, cardId := "card1",
        cardName := "Task", boardId := "board1" } 5000 true).1.success = true ∧
    (fStopTimer [("card1",
        { active := false, startTime := 0, cardId := "card1",
          cardName := "Task", boardId := "board1" })] "card1"
      { active := false, startTime := 0, cardId := "card1",
        cardName := "Task", boardId := "board1" } 5000 true).2 = [] ∧
    ([("card1",
        { active := false, startTime := 0, cardId := "card1",
          cardName := "Task", boardId := "board1" })] : FStore) ≠ [] := by
  decide

/-- C8 (amended): the frontend `stopTimer` computes
`Math.floor((now - startedAt) / 1000)` with no clamping, so whenever the
clock has moved at least one second behind the recorded start the
returned duration is strictly negative. -/
theorem c8_duration_unclamped (s : FStore) (c : String) (r : FRecord)
    (now : Int) (remoteOk : Bool) :
    (fStopTimer s c r now remoteOk).1.duration =
      Int.fdiv (now - r.startTime) 1000 ∧
    (now - r.startTime ≤ -1000 →
      (fStopTimer s c r now remoteOk).1.duration < 0) := by
  refine ⟨rfl, ?_⟩
  intro h
  show Int.fdiv (now - r.startTime) 1000 < 0
  have h1 : Int.fdiv (now - r.startTime) 1000 = (now - r.startTime) / 1000 :=
    Int.fdiv_eq_ediv _ (by norm_num)
  have h2 : (now - r.startTime) / 1000 ≤ (-1000 : Int) / 1000 :=
    Int.ediv_le_ediv (by norm_num) h
  have h3 : ((-1000 : Int) / 1000) = -1 := by decide
  rw [h1]
  rw [h3] at h2
  exact lt_of_le_of_lt h2 (by norm_num)

/-- C8 witness: started at t = 10000 ms, stopped with the clock back at
t = 0: the returned duration is negative. -/
theorem c8_duration_unclamped_witness :
    (fStopTimer [] "card1" (mkFRecord ⟨"card1", "Task", "board1"⟩ 10000)
      0 true).1.duration < 0 :=
  (c8_duration_unclamped [] "card1" (mkFRecord ⟨"card1", "Task", "board1"⟩ 10000)
    0 true).2 (by decide)

/-- C8 counterexample: with `startedAt = 10000` ms and `now = 0` the
frontend stop returns duration −10 s, refuting "clamped to ≥ 0 /
never negative". -/
theorem c8_counterexample_negative_duration :
    (fStopTimer [] "card1" (mkFRecord ⟨"card1", "Task", "board1"⟩ 10000)
      0 true).1.duration = -10 ∧ ¬(0 : Int) ≤ -10 := by
  decide

/-- C9: the frontend `Utils.apiCall` is total towards its callers: its
single try/catch turns a thrown fetch (or thrown token read) and a
non-ok response into null, and the parsed body is returned only when
the response is ok — no failure mode escapes as an exception (the
embedding is a total function into Option). -/
theorem c9_apiCall_never_throws (endpoint method : String)
    (payload : Option String) (o : FetchOutcome) :
    (∀ b, frontApiCall endpoint method payload o = some b →
      o = FetchOutcome.response true true b) ∧
    frontApiCall endpoint method payload FetchOutcome.throwErr = none ∧
    (∀ pOk body, frontApiCall endpoint method payload
      (FetchOutcome.response false pOk body) = none) := by
  refine ⟨?_, rfl, fun pOk body => rfl⟩
  intro b hb
  cases o with
  | throwErr => simp [frontApiCall] at hb
  | response ok pOk body =>
    cases ok with
    | false => simp [frontApiCall] at hb
    | true =>
      cases pOk with
      | false => simp [frontApiCall] at hb
      | true =>
        simp [frontApiCall] at hb
        rw [hb]

/-- C9 witness: an ok response returns its body (so the success case is
exercised) and a thrown fetch returns null. -/
theorem c9_apiCall_never_throws_witness :
    FetchOutcome.response true true "ok" = FetchOutcome.response true true "ok" ∧
    frontApiCall "/time/stop" "POST" none FetchOutcome.throwErr = none :=
  ⟨(c9_apiCall_never_throws "/time/stop" "POST" none
      (FetchOutcome.response true true "ok")).1 "ok" rfl,
   (c9_apiCall_never_throws "/time/stop" "POST" none
      FetchOutcome.throwErr).2.1⟩

/-- C10: on the trello-powerup `stopTimer` catch path (remote sync
threw) the result is `{duration: 0, error: true}` for every record and
every stop time — the elapsed time is not reported — while the record
is still removed from the store. -/
theorem c10_error_path_zero_duration (s : PStore) (c : String) (r : PRecord)
    (now : Int) :
    (puStopTimer s c r now false).1 = { duration := 0, error := true } ∧
    storeGet (puStopTimer s c r now false).2.1 c = none := by
  constructor
  · cases ho : r.offline <;> simp [puStopTimer, ho]
  · cases ho : r.offline <;> simp [puStopTimer, ho] <;>
      exact storeGet_storeRemove_self s c
